import Mathlib

/-!
Shallow embedding of ambassador/ir/irtls.py: the IREnvoyTLS TLS-context
entity (its cert_specified and setup methods), the pass-wide _cert_problems
flag, and TLSModuleFactory.load_all, together with the collaborating
Resource attribute-bag operations and the IR-level services they consume.
The attribute bag, the IR container services and the aggregated-config
interface are not under src/ and are modelled from the spec where noted;
all TLS logic is translated directly from irtls.py.
-/

namespace AmbassadorTLS

/-- Attribute values stored in a Resource attribute bag. -/
inductive Val where
  | str : String → Val
  | bool : Bool → Val
  | num : Int → Val
deriving DecidableEq, Repr

/-- Modelled from the spec: the Resource attribute bag (spec, data model and
base contract) backing IRResource, which is not under src/. A bag is an
ordered list of key/value pairs with dict semantics: unique keys and
insertion order preserved. -/
abbrev Bag := List (String × Val)

/-- Modelled from the spec: dict lookup, Resource.get. -/
def bagGet : Bag → String → Option Val
  | [], _ => none
  | (k, v) :: rest, key => if k = key then some v else bagGet rest key

/-- Modelled from the spec: dict item assignment; replaces the value of an
existing key in place, appends a fresh key at the end. -/
def bagSet : Bag → String → Val → Bag
  | [], key, v => [(key, v)]
  | (k, w) :: rest, key, v =>
    if k = key then (key, v) :: rest else (k, w) :: bagSet rest key v

/-- Modelled from the spec: dict pop with a default; removing an absent key
is a no-op. -/
def bagPop : Bag → String → Bag
  | [], _ => []
  | (k, w) :: rest, key => if k = key then bagPop rest key else (k, w) :: bagPop rest key

/-- Modelled from the spec: dict membership test. -/
def bagContains (b : Bag) (k : String) : Bool :=
  (bagGet b k).isSome

/-- Modelled from the spec: dict.update, merging every pair of the second
bag into the first. -/
def bagUpdate : Bag → Bag → Bag
  | b, [] => b
  | b, (k, v) :: rest => bagUpdate (bagSet b k v) rest

/-- The distinct diagnostic messages irtls.py posts, one constructor per
format string in the source (arguments are the interpolated values). -/
inductive Msg where
  | certChainMissing : String → Val → Msg
  | privateKeyMissing : String → Val → Msg
  | tlsNotTurnedOn : Msg
  | secretAndCertsConflict : Msg
  | secretUnresolved : Val → Msg
deriving DecidableEq, Repr

/-- An error recorded by the Error Aggregator: the scope (some entity name
for Resource.post_error, none for IR-level ir.post_error) and the message. -/
abbrev ErrEntry := Option String × Msg

/-- Modelled from the spec: the IR container services irtls.py consumes
(ir.file_checker, ir.tls_secret_resolver, ir.get_tls_defaults), injected
capabilities whose implementations live outside src/. -/
structure IR where
  fileChecker : Val → Bool
  tlsSecretResolver : Option (Val → Option Bag)
  tlsDefaults : String → Option Bag

/-- An IREnvoyTLS entity: its name, enabled flag and attribute bag. -/
structure IREnvoyTLS where
  name : String
  enabled : Bool
  attrs : Bag
deriving DecidableEq, Repr

/-- Result of cert_specified: the returned bool, the errors posted during
the call in order, the _cert_problems flag afterwards, and the paths passed
to ir.file_checker in order. -/
structure CSResult where
  value : Bool
  errors : List ErrEntry
  flag : Bool
  checks : List Val
deriving DecidableEq, Repr

/-- The private_key_file half of cert_specified (irtls.py lines 72-84):
a present key file must pass ir.file_checker; a failure posts a scoped
error and, when _cert_problems is not yet set, sets it and posts the
TLS-disabled notice via self.post_error (scoped to this entity). -/
def cs_key (ir : IR) (n : String) (a : Bag) (cs : Bool) (errs : List ErrEntry)
    (checks : List Val) (flag : Bool) : CSResult :=
  match bagGet a "private_key_file" with
  | none => ⟨cs, errs, flag, checks⟩
  | some pkf =>
    if ir.fileChecker pkf then ⟨true, errs, flag, checks ++ [pkf]⟩
    else if flag then
      ⟨false, errs ++ [(some n, Msg.privateKeyMissing n pkf)], flag, checks ++ [pkf]⟩
    else
      ⟨false, errs ++ [(some n, Msg.privateKeyMissing n pkf), (some n, Msg.tlsNotTurnedOn)],
        true, checks ++ [pkf]⟩

/-- IREnvoyTLS.cert_specified (irtls.py lines 56-85). The cert_chain_file
branch posts its one-time notice via ir.post_error (IR-level, scope none);
the private_key_file branch posts it via self.post_error (scoped). -/
def cert_specified (ir : IR) (e : IREnvoyTLS) (flag : Bool) : CSResult :=
  match bagGet e.attrs "cert_chain_file" with
  | none => cs_key ir e.name e.attrs false [] [] flag
  | some ccf =>
    if ir.fileChecker ccf then cs_key ir e.name e.attrs true [] [ccf] flag
    else if flag then
      ⟨false, [(some e.name, Msg.certChainMissing e.name ccf)], flag, [ccf]⟩
    else
      ⟨false, [(some e.name, Msg.certChainMissing e.name ccf), (none, Msg.tlsNotTurnedOn)],
        true, [ccf]⟩

/-- Result of setup: the returned bool, the entity attribute bag afterwards,
the errors posted in order, the _cert_problems flag afterwards, the paths
passed to ir.file_checker, and the secret names passed to the resolver. -/
structure SetupResult where
  ret : Bool
  attrs : Bag
  errors : List ErrEntry
  flag : Bool
  checks : List Val
  resolverCalls : List Val
deriving DecidableEq, Repr

/-- The bag as mutated by the first two statements of the enabled branch of
setup (irtls.py lines 91-94): valid_tls is set to False, then a present
cert_chain_file is popped and re-stored as certificate_chain_file. -/
def setup_bag1 (e : IREnvoyTLS) : Bag :=
  let a0 := bagSet e.attrs "valid_tls" (Val.bool false)
  match bagGet a0 "cert_chain_file" with
  | some v => bagSet (bagPop a0 "cert_chain_file") "certificate_chain_file" v
  | none => a0

/-- The cert_specified call made by setup (irtls.py line 98): it runs on the
entity after the rename of setup_bag1, so cert_chain_file is already gone. -/
def cs_in_setup (ir : IR) (e : IREnvoyTLS) (flag : Bool) : CSResult :=
  cert_specified ir ⟨e.name, e.enabled, setup_bag1 e⟩ flag

/-- The tail of setup after the conflict and resolution checks (irtls.py
lines 118-132): set valid_tls when a secret, certs or a redirect is
configured, backfill absent defaults, return True. -/
def setup_finish (ir : IR) (e : IREnvoyTLS) (a : Bag) (secret : Option Val)
    (cs : CSResult) (calls : List Val) : SetupResult :=
  let a2 :=
    if secret.isSome || cs.value || (bagGet a "redirect_cleartext_from").isSome then
      bagSet a "valid_tls" (Val.bool true)
    else a
  ⟨true, backfill a2 ((ir.tlsDefaults e.name).getD []), cs.errors, cs.flag, cs.checks, calls⟩
where
  /-- The defaults loop of setup (irtls.py lines 123-128): a default key is
  copied in only when absent from the entity. -/
  backfill : Bag → Bag → Bag
    | b, [] => b
    | b, (k, v) :: rest =>
      backfill (if bagContains b k then b else bagSet b k v) rest

/-- The enabled branch of setup (irtls.py lines 91-132). -/
def setup_enabled (ir : IR) (e : IREnvoyTLS) (flag : Bool) : SetupResult :=
  let a1 := setup_bag1 e
  let secret := bagGet a1 "secret"
  let cs := cs_in_setup ir e flag
  if secret.isSome && cs.value then
    ⟨false, bagPop (bagPop (bagPop a1 "secret") "cert_chain_file") "private_key_file",
      cs.errors ++ [(some e.name, Msg.secretAndCertsConflict), (some e.name, Msg.tlsNotTurnedOn)],
      cs.flag, cs.checks, []⟩
  else
    match secret, ir.tlsSecretResolver with
    | some s, some resolver =>
      match resolver s with
      | none =>
        ⟨false, a1,
          cs.errors ++ [(some e.name, Msg.secretUnresolved s), (some e.name, Msg.tlsNotTurnedOn)],
          cs.flag, cs.checks, [s]⟩
      | some resolved => setup_finish ir e (bagUpdate a1 resolved) secret cs [s]
    | _, _ => setup_finish ir e a1 secret cs []

/-- IREnvoyTLS.setup (irtls.py lines 87-132); a disabled entity returns
False immediately, before any mutation, check or error. -/
def setup (ir : IR) (e : IREnvoyTLS) (flag : Bool) : SetupResult :=
  if e.enabled then setup_enabled ir e flag else ⟨false, e.attrs, [], flag, [], []⟩

/-- One compilation pass over a list of entities: each setup threads the
process-wide _cert_problems flag to the next (irtls.py declares the flag as
a class variable, set inside cert_specified and never cleared); the pass
accumulates every posted error in order. -/
def runPass (ir : IR) : Bool → List IREnvoyTLS → List ErrEntry × Bool
  | flag, [] => ([], flag)
  | flag, e :: rest =>
    let r := setup ir e flag
    let rr := runPass ir r.flag rest
    (r.errors ++ rr.1, rr.2)

/-- Number of TLS-disabled notices in an error list. -/
def countNotices : List ErrEntry → Nat
  | [] => 0
  | x :: r => (if x.2 = Msg.tlsNotTurnedOn then 1 else 0) + countNotices r

/-- Number of TLS-disabled notices posted at the IR level (scope none). -/
def countIRNotices : List ErrEntry → Nat
  | [] => 0
  | x :: r => (if x.1 = none ∧ x.2 = Msg.tlsNotTurnedOn then 1 else 0) + countIRNotices r

/-- Whether an error list contains a secret-resolution failure message. -/
def hasSecretUnresolvedMsg : List ErrEntry → Bool
  | [] => false
  | x :: r =>
    (match x.2 with
     | Msg.secretUnresolved _ => true
     | _ => false) || hasSecretUnresolvedMsg r

/-- An enabled entity with no secret whose private_key_file is present but
fails the file-existence check: the only cert-file failure reachable from
setup, since the chain file is renamed away before cert_specified runs. -/
def pkf_fails (ir : IR) (e : IREnvoyTLS) : Bool :=
  match bagGet e.attrs "private_key_file" with
  | none => false
  | some p => e.enabled && (bagGet e.attrs "secret").isNone && !(ir.fileChecker p)

/-- The conflict condition of setup (irtls.py line 100): a secret together
with a true cert_specified result. -/
def conflictB (ir : IR) (e : IREnvoyTLS) (flag : Bool) : Bool :=
  (bagGet e.attrs "secret").isSome && (cs_in_setup ir e flag).value

/-- The failed-resolution condition of setup (irtls.py lines 108-116): a
secret, a configured resolver, and a resolution that returns nothing. -/
def failedResB (ir : IR) (e : IREnvoyTLS) : Bool :=
  match bagGet e.attrs "secret", ir.tlsSecretResolver with
  | some s, some r => (r s).isNone
  | _, _ => false

/-- Modelled from the spec: a raw resource of the aggregated config, which
exposes as_dict() together with rkey, kind, name and location properties;
the aggregated-config layer is not under src/. -/
structure RawResource where
  rkey : Val
  kind : Val
  name : Val
  location : Val
  dict : Bag
deriving DecidableEq, Repr

/-- Modelled from the spec: the aggregated Config, looked up by module kind
key (Config.get_module is not under src/). -/
structure Config where
  getModule : String → Option RawResource

/-- dict.pop with a default value, as used by load_all. -/
def popDefault (b : Bag) (k : String) (d : Val) : Val × Bag :=
  match bagGet b k with
  | some v => (v, bagPop b k)
  | none => (d, b)

/-- An IRAmbassadorTLS module entity: the explicitly passed identity fields
and the remaining constructor keyword arguments. -/
structure IRAmbassadorTLS where
  rkey : Val
  kind : Val
  name : Val
  location : Val
  attrs : Bag
deriving DecidableEq, Repr

/-- TLSModuleFactory.load_all (irtls.py lines 160-185): a no-op without a
tls module; otherwise the identity fields are popped from a copy of the
raw dict (falling back to the resource properties) and the rest is passed
to the IRAmbassadorTLS constructor. Returns the saved ir.tls_module. -/
def load_all (aconf : Config) : Option IRAmbassadorTLS :=
  match aconf.getModule "tls" with
  | none => none
  | some m =>
    let p1 := popDefault m.dict "rkey" m.rkey
    let p2 := popDefault p1.2 "kind" m.kind
    let p3 := popDefault p2.2 "name" m.name
    let p4 := popDefault p3.2 "location" m.location
    some ⟨p1.1, p2.1, p3.1, p4.1, p4.2⟩

/-- A file checker that accepts every path; no resolver, no defaults. -/
def irAllExist : IR := ⟨fun _ => true, none, fun _ => none⟩

/-- A file checker that rejects every path; no resolver, no defaults. -/
def irNoneExist : IR := ⟨fun _ => false, none, fun _ => none⟩

/-- All files exist and the defaults table carries a cert_chain_file. -/
def irDefaultsCCF : IR := ⟨fun _ => true, none, fun _ => some [("cert_chain_file", Val.str "/d")]⟩

/-- All files exist and the defaults table carries a min_tls_version. -/
def irDefaultsMin : IR := ⟨fun _ => true, none, fun _ => some [("min_tls_version", Val.str "1.2")]⟩

/-- Enabled entity with a secret and both cert files. -/
def entConflict : IREnvoyTLS :=
  ⟨"ctx1", true, [("secret", Val.str "s1"), ("cert_chain_file", Val.str "/c"),
    ("private_key_file", Val.str "/k")]⟩

/-- Enabled entity with only a private key file. -/
def entKeyOnly : IREnvoyTLS := ⟨"ctx2", true, [("private_key_file", Val.str "/k")]⟩

/-- Enabled entity with only a (missing) private key file. -/
def entKeyMissing : IREnvoyTLS := ⟨"ctx3", true, [("private_key_file", Val.str "/m")]⟩

/-- A second enabled entity with only a (missing) private key file. -/
def entKeyMissingB : IREnvoyTLS := ⟨"ctx3b", true, [("private_key_file", Val.str "/m2")]⟩

/-- Enabled entity with an empty attribute bag. -/
def entEmpty : IREnvoyTLS := ⟨"ctx4", true, []⟩

/-- Enabled entity with only a cert_chain_file. -/
def entChainOnly : IREnvoyTLS := ⟨"ctx5", true, [("cert_chain_file", Val.str "/x")]⟩

/-- Disabled entity carrying a secret. -/
def entDisabled : IREnvoyTLS := ⟨"ctx6", false, [("secret", Val.str "s")]⟩

/-- Enabled entity with only a secret. -/
def entSecretOnly : IREnvoyTLS := ⟨"ctx7", true, [("secret", Val.str "foo")]⟩

/-- A config with no tls module at all. -/
def confEmpty : Config := ⟨fun _ => none⟩

/-- A raw tls module whose dict overrides name and adds one attribute. -/
def rawTLSModule : RawResource :=
  ⟨Val.str "rk1", Val.str "Module", Val.str "tls", Val.str "loc1",
    [("name", Val.str "tlsmod"), ("enabled", Val.bool true)]⟩

/-- A config holding exactly the tls module rawTLSModule. -/
def confWithTLS : Config := ⟨fun k => if k = "tls" then some rawTLSModule else none⟩

theorem bagGet_bagSet_self (b : Bag) (k : String) (v : Val) :
    bagGet (bagSet b k v) k = some v := by
  induction b with
  | nil => simp [bagSet, bagGet]
  | cons hd tl ih =>
    obtain ⟨k0, v0⟩ := hd
    by_cases h : k0 = k
    · subst h; simp [bagSet, bagGet]
    · simp [bagSet, bagGet, h, ih]

theorem bagGet_bagSet_ne (b : Bag) (k : String) (v : Val) (k2 : String) (h : k ≠ k2) :
    bagGet (bagSet b k v) k2 = bagGet b k2 := by
  induction b with
  | nil => simp [bagSet, bagGet, h]
  | cons hd tl ih =>
    obtain ⟨k0, v0⟩ := hd
    by_cases h0 : k0 = k
    · subst h0; simp [bagSet, bagGet, h]
    · simp [bagSet, bagGet, h0, ih]

theorem bagGet_bagPop_self (b : Bag) (k : String) :
    bagGet (bagPop b k) k = none := by
  induction b with
  | nil => simp [bagPop, bagGet]
  | cons hd tl ih =>
    obtain ⟨k0, v0⟩ := hd
    by_cases h0 : k0 = k
    · simp [bagPop, h0, ih]
    · simp [bagPop, bagGet, h0, ih]

theorem bagGet_bagPop_ne (b : Bag) (k k2 : String) (h : k ≠ k2) :
    bagGet (bagPop b k) k2 = bagGet b k2 := by
  induction b with
  | nil => simp [bagPop]
  | cons hd tl ih =>
    obtain ⟨k0, v0⟩ := hd
    by_cases h0 : k0 = k
    · subst h0; simp [bagPop, bagGet, h, ih]
    · simp [bagPop, bagGet, h0, ih]

theorem bagGet_bagUpdate_of_none (b m : Bag) (k : String) (h : bagGet m k = none) :
    bagGet (bagUpdate b m) k = bagGet b k := by
  induction m generalizing b with
  | nil => rfl
  | cons hd tl ih =>
    obtain ⟨k0, v0⟩ := hd
    by_cases h0 : k0 = k
    · subst h0; simp [bagGet] at h
    · rw [bagGet] at h
      simp only [h0, if_false] at h
      rw [bagUpdate, ih _ h, bagGet_bagSet_ne _ _ _ _ h0]

theorem bagGet_backfill_of_some (b d : Bag) (k : String) (v : Val)
    (h : bagGet b k = some v) : bagGet (setup_finish.backfill b d) k = some v := by
  induction d generalizing b with
  | nil => exact h
  | cons hd tl ih =>
    obtain ⟨k0, v0⟩ := hd
    rw [setup_finish.backfill]
    by_cases hc : bagContains b k0
    · rw [if_pos hc]
      exact ih _ h
    · rw [if_neg hc]
      apply ih
      have h0 : k0 ≠ k := by
        intro he
        subst he
        simp [bagContains, h] at hc
      rw [bagGet_bagSet_ne _ _ _ _ h0]
      exact h

theorem bagGet_backfill_of_none (b d : Bag) (k : String)
    (h : bagGet b k = none) : bagGet (setup_finish.backfill b d) k = bagGet d k := by
  induction d generalizing b with
  | nil => exact h
  | cons hd tl ih =>
    obtain ⟨k0, v0⟩ := hd
    rw [setup_finish.backfill]
    by_cases h0 : k0 = k
    · subst h0
      have hc : ¬bagContains b k0 = true := by simp [bagContains, h]
      rw [if_neg hc]
      rw [bagGet_backfill_of_some _ _ _ v0 (bagGet_bagSet_self b k0 v0)]
      simp [bagGet]
    · by_cases hc : bagContains b k0
      · rw [if_pos hc, ih _ h]
        simp [bagGet, h0]
      · rw [if_neg hc, ih _ (by rw [bagGet_bagSet_ne _ _ _ _ h0]; exact h)]
        simp [bagGet, h0]

theorem setup_bag1_get_ne (e : IREnvoyTLS) (k : String) (h1 : k ≠ "valid_tls")
    (h2 : k ≠ "cert_chain_file") (h3 : k ≠ "certificate_chain_file") :
    bagGet (setup_bag1 e) k = bagGet e.attrs k := by
  rw [setup_bag1]
  cases hc : bagGet (bagSet e.attrs "valid_tls" (Val.bool false)) "cert_chain_file" with
  | none =>
    simp only []
    rw [bagGet_bagSet_ne _ _ _ _ (Ne.symm h1)]
  | some v =>
    simp only []
    rw [bagGet_bagSet_ne _ _ _ _ (Ne.symm h3), bagGet_bagPop_ne _ _ _ (Ne.symm h2),
      bagGet_bagSet_ne _ _ _ _ (Ne.symm h1)]

theorem setup_bag1_get_ccf (e : IREnvoyTLS) :
    bagGet (setup_bag1 e) "cert_chain_file" = none := by
  rw [setup_bag1]
  cases hc : bagGet (bagSet e.attrs "valid_tls" (Val.bool false)) "cert_chain_file" with
  | none => exact hc
  | some v =>
    simp only []
    rw [bagGet_bagSet_ne _ _ _ _ (by decide), bagGet_bagPop_self]

theorem setup_bag1_get_valid (e : IREnvoyTLS) :
    bagGet (setup_bag1 e) "valid_tls" = some (Val.bool false) := by
  rw [setup_bag1]
  cases hc : bagGet (bagSet e.attrs "valid_tls" (Val.bool false)) "cert_chain_file" with
  | none =>
    simp only []
    exact bagGet_bagSet_self _ _ _
  | some v =>
    simp only []
    rw [bagGet_bagSet_ne _ _ _ _ (by decide), bagGet_bagPop_ne _ _ _ (by decide)]
    exact bagGet_bagSet_self _ _ _

theorem setup_bag1_get_cccf_of_some (e : IREnvoyTLS) (v : Val)
    (h : bagGet e.attrs "cert_chain_file" = some v) :
    bagGet (setup_bag1 e) "certificate_chain_file" = some v := by
  have h0 : bagGet (bagSet e.attrs "valid_tls" (Val.bool false)) "cert_chain_file" = some v := by
    rw [bagGet_bagSet_ne _ _ _ _ (by decide)]
    exact h
  rw [setup_bag1]
  simp only [h0]
  exact bagGet_bagSet_self _ _ _

theorem setup_bag1_get_secret (e : IREnvoyTLS) :
    bagGet (setup_bag1 e) "secret" = bagGet e.attrs "secret" :=
  setup_bag1_get_ne e _ (by decide) (by decide) (by decide)

theorem setup_bag1_get_redirect (e : IREnvoyTLS) :
    bagGet (setup_bag1 e) "redirect_cleartext_from" = bagGet e.attrs "redirect_cleartext_from" :=
  setup_bag1_get_ne e _ (by decide) (by decide) (by decide)

theorem setup_bag1_get_pkf (e : IREnvoyTLS) :
    bagGet (setup_bag1 e) "private_key_file" = bagGet e.attrs "private_key_file" :=
  setup_bag1_get_ne e _ (by decide) (by decide) (by decide)

/-- Master characterization of the cert_specified call made by setup: since
setup has already renamed cert_chain_file away, only the private_key_file
branch can act. -/
theorem cs_in_setup_eq (ir : IR) (e : IREnvoyTLS) (flag : Bool) :
    cs_in_setup ir e flag =
      match bagGet e.attrs "private_key_file" with
      | none => ⟨false, [], flag, []⟩
      | some p =>
        if ir.fileChecker p then ⟨true, [], flag, [p]⟩
        else if flag then
          ⟨false, [(some e.name, Msg.privateKeyMissing e.name p)], flag, [p]⟩
        else
          ⟨false, [(some e.name, Msg.privateKeyMissing e.name p),
            (some e.name, Msg.tlsNotTurnedOn)], true, [p]⟩ := by
  have hccf : bagGet (setup_bag1 e) "cert_chain_file" = none := setup_bag1_get_ccf e
  have hpkf := setup_bag1_get_pkf e
  cases hp : bagGet e.attrs "private_key_file" with
  | none => simp [cs_in_setup, cert_specified, cs_key, hccf, hpkf, hp]
  | some p =>
    cases hch : ir.fileChecker p with
    | true => simp [cs_in_setup, cert_specified, cs_key, hccf, hpkf, hp, hch]
    | false =>
      cases flag <;> simp [cs_in_setup, cert_specified, cs_key, hccf, hpkf, hp, hch]

theorem cs_value_iff (ir : IR) (e : IREnvoyTLS) (flag : Bool) :
    (cs_in_setup ir e flag).value = true ↔
      ∃ p, bagGet e.attrs "private_key_file" = some p ∧ ir.fileChecker p = true := by
  rw [cs_in_setup_eq]
  cases hp : bagGet e.attrs "private_key_file" with
  | none => simp
  | some p =>
    cases hch : ir.fileChecker p with
    | true => simp [hch]
    | false => cases flag <;> simp [hch]

theorem cs_true_spec (ir : IR) (e : IREnvoyTLS) (flag : Bool)
    (h : (cs_in_setup ir e flag).value = true) :
    (cs_in_setup ir e flag).errors = [] ∧ (cs_in_setup ir e flag).flag = flag := by
  obtain ⟨p, hp, hch⟩ := (cs_value_iff ir e flag).mp h
  rw [cs_in_setup_eq, hp]
  simp [hch]

theorem cs_no_unresolved (ir : IR) (e : IREnvoyTLS) (flag : Bool) :
    hasSecretUnresolvedMsg (cs_in_setup ir e flag).errors = false := by
  rw [cs_in_setup_eq]
  cases hp : bagGet e.attrs "private_key_file" with
  | none => rfl
  | some p =>
    cases hch : ir.fileChecker p <;> cases flag <;>
      simp [hasSecretUnresolvedMsg, hch]

theorem setup_eq_conflict (ir : IR) (e : IREnvoyTLS) (flag : Bool)
    (he : e.enabled = true) (hs : (bagGet e.attrs "secret").isSome = true)
    (hcv : (cs_in_setup ir e flag).value = true) :
    setup ir e flag =
      ⟨false, bagPop (bagPop (bagPop (setup_bag1 e) "secret") "cert_chain_file")
          "private_key_file",
        (cs_in_setup ir e flag).errors ++
          [(some e.name, Msg.secretAndCertsConflict), (some e.name, Msg.tlsNotTurnedOn)],
        (cs_in_setup ir e flag).flag, (cs_in_setup ir e flag).checks, []⟩ := by
  simp [setup, he, setup_enabled, setup_bag1_get_secret, hs, hcv]

theorem setup_eq_finish_none (ir : IR) (e : IREnvoyTLS) (flag : Bool)
    (he : e.enabled = true) (hs : bagGet e.attrs "secret" = none) :
    setup ir e flag =
      setup_finish ir e (setup_bag1 e) none (cs_in_setup ir e flag) [] := by
  simp [setup, he, setup_enabled, setup_bag1_get_secret, hs]

theorem setup_eq_finish_nores (ir : IR) (e : IREnvoyTLS) (flag : Bool) (s : Val)
    (he : e.enabled = true) (hs : bagGet e.attrs "secret" = some s)
    (hcv : (cs_in_setup ir e flag).value = false)
    (hr : ir.tlsSecretResolver = none) :
    setup ir e flag =
      setup_finish ir e (setup_bag1 e) (some s) (cs_in_setup ir e flag) [] := by
  simp [setup, he, setup_enabled, setup_bag1_get_secret, hs, hcv, hr]

theorem setup_eq_resfail (ir : IR) (e : IREnvoyTLS) (flag : Bool) (s : Val)
    (r : Val → Option Bag)
    (he : e.enabled = true) (hs : bagGet e.attrs "secret" = some s)
    (hcv : (cs_in_setup ir e flag).value = false)
    (hr : ir.tlsSecretResolver = some r) (hm : r s = none) :
    setup ir e flag =
      ⟨false, setup_bag1 e,
        (cs_in_setup ir e flag).errors ++
          [(some e.name, Msg.secretUnresolved s), (some e.name, Msg.tlsNotTurnedOn)],
        (cs_in_setup ir e flag).flag, (cs_in_setup ir e flag).checks, [s]⟩ := by
  simp [setup, he, setup_enabled, setup_bag1_get_secret, hs, hcv, hr, hm]

theorem setup_eq_finish_resolved (ir : IR) (e : IREnvoyTLS) (flag : Bool) (s : Val)
    (r : Val → Option Bag) (m : Bag)
    (he : e.enabled = true) (hs : bagGet e.attrs "secret" = some s)
    (hcv : (cs_in_setup ir e flag).value = false)
    (hr : ir.tlsSecretResolver = some r) (hm : r s = some m) :
    setup ir e flag =
      setup_finish ir e (bagUpdate (setup_bag1 e) m) (some s) (cs_in_setup ir e flag) [s] := by
  simp [setup, he, setup_enabled, setup_bag1_get_secret, hs, hcv, hr, hm]

theorem setup_finish_ret (ir : IR) (e : IREnvoyTLS) (a : Bag) (secret : Option Val)
    (cs : CSResult) (calls : List Val) :
    (setup_finish ir e a secret cs calls).ret = true := rfl

theorem setup_finish_errors (ir : IR) (e : IREnvoyTLS) (a : Bag) (secret : Option Val)
    (cs : CSResult) (calls : List Val) :
    (setup_finish ir e a secret cs calls).errors = cs.errors := rfl

theorem setup_finish_flag (ir : IR) (e : IREnvoyTLS) (a : Bag) (secret : Option Val)
    (cs : CSResult) (calls : List Val) :
    (setup_finish ir e a secret cs calls).flag = cs.flag := rfl

theorem setup_finish_valid_true (ir : IR) (e : IREnvoyTLS) (a : Bag) (secret : Option Val)
    (cs : CSResult) (calls : List Val)
    (h : (secret.isSome || cs.value || (bagGet a "redirect_cleartext_from").isSome) = true) :
    bagGet (setup_finish ir e a secret cs calls).attrs "valid_tls" = some (Val.bool true) := by
  simp only [setup_finish, h, if_true]
  exact bagGet_backfill_of_some _ _ _ _ (bagGet_bagSet_self _ _ _)

theorem setup_finish_valid_eq (ir : IR) (e : IREnvoyTLS) (a : Bag) (secret : Option Val)
    (cs : CSResult) (calls : List Val)
    (hva : bagGet a "valid_tls" = some (Val.bool false)) :
    bagGet (setup_finish ir e a secret cs calls).attrs "valid_tls" =
      some (Val.bool (secret.isSome || cs.value || (bagGet a "redirect_cleartext_from").isSome)) := by
  cases hc : (secret.isSome || cs.value || (bagGet a "redirect_cleartext_from").isSome) with
  | true => rw [setup_finish_valid_true ir e a secret cs calls hc]
  | false =>
    simp only [setup_finish, hc, Bool.false_eq_true, if_false]
    exact bagGet_backfill_of_some _ _ _ _ hva

theorem setup_finish_get_some (ir : IR) (e : IREnvoyTLS) (a : Bag) (secret : Option Val)
    (cs : CSResult) (calls : List Val) (k : String) (v : Val)
    (hk : k ≠ "valid_tls") (h : bagGet a k = some v) :
    bagGet (setup_finish ir e a secret cs calls).attrs k = some v := by
  simp only [setup_finish]
  cases hc : (secret.isSome || cs.value || (bagGet a "redirect_cleartext_from").isSome) with
  | true =>
    rw [if_pos rfl]
    exact bagGet_backfill_of_some _ _ _ _ (by rw [bagGet_bagSet_ne _ _ _ _ (Ne.symm hk)]; exact h)
  | false =>
    rw [if_neg (by simp)]
    exact bagGet_backfill_of_some _ _ _ _ h

theorem setup_finish_get_none (ir : IR) (e : IREnvoyTLS) (a : Bag) (secret : Option Val)
    (cs : CSResult) (calls : List Val) (k : String)
    (hk : k ≠ "valid_tls") (h : bagGet a k = none) :
    bagGet (setup_finish ir e a secret cs calls).attrs k =
      bagGet ((ir.tlsDefaults e.name).getD []) k := by
  simp only [setup_finish]
  cases hc : (secret.isSome || cs.value || (bagGet a "redirect_cleartext_from").isSome) with
  | true =>
    rw [if_pos rfl]
    exact bagGet_backfill_of_none _ _ _ (by rw [bagGet_bagSet_ne _ _ _ _ (Ne.symm hk)]; exact h)
  | false =>
    rw [if_neg (by simp)]
    exact bagGet_backfill_of_none _ _ _ h

theorem setup_disabled_eq (ir : IR) (e : IREnvoyTLS) (flag : Bool)
    (h : e.enabled = false) :
    setup ir e flag = ⟨false, e.attrs, [], flag, [], []⟩ := by
  simp [setup, h]

/-- Claim C8 (confirmed): a disabled TLS entity makes setup return false
immediately: no file-existence check runs, no resolution is attempted, no
error is posted, the flag is untouched and the attribute bag is unchanged. -/
theorem c8_disabled_short_circuit (ir : IR) (e : IREnvoyTLS) (flag : Bool)
    (h : e.enabled = false) :
    setup ir e flag = ⟨false, e.attrs, [], flag, [], []⟩ := by
  simp [setup, h]

/-- Witness for C8 at a concrete disabled entity. -/
theorem c8_disabled_short_circuit_witness :
    setup irAllExist entDisabled false = ⟨false, entDisabled.attrs, [], false, [], []⟩ :=
  c8_disabled_short_circuit irAllExist entDisabled false rfl

/-- Claim C2 counterexample: an enabled entity with only an existing
private_key_file and no certificate chain file still gets cert_specified
true during setup, refuting the both-or-neither policy. -/
theorem c2_counterexample :
    (cs_in_setup irAllExist entKeyOnly false).value = true
    ∧ bagGet entKeyOnly.attrs "cert_chain_file" = none := by
  decide

/-- Claim C2 (amended): during setup the chain file has already been renamed
to certificate_chain_file before cert_specified runs, so its chain branch
never fires: the computed cert_specified value is true iff the private key
file is present and passes the existence check; the chain file contributes
nothing and its existence is never checked at this point. -/
theorem c2_amended (ir : IR) (e : IREnvoyTLS) (flag : Bool) :
    (cs_in_setup ir e flag).value = true ↔
      ∃ p, bagGet e.attrs "private_key_file" = some p ∧ ir.fileChecker p = true :=
  cs_value_iff ir e flag

/-- Witness for C2 (amended) at a concrete key-only entity. -/
theorem c2_amended_witness : (cs_in_setup irAllExist entKeyOnly false).value = true :=
  (c2_amended irAllExist entKeyOnly false).mpr ⟨Val.str "/k", rfl, rfl⟩

/-- Claim C1 counterexample: in the conflict case with a chain file set, the
chain file survives the cleanup under its renamed key certificate_chain_file,
so the entity does not end up without certificate-file attributes. -/
theorem c1_counterexample :
    (setup irAllExist entConflict false).ret = false
    ∧ bagGet (setup irAllExist entConflict false).attrs "certificate_chain_file"
        = some (Val.str "/c") := by
  decide

/-- Claim C1 (amended): for an enabled entity with a secret and a true
cert_specified check, setup returns false, pops the secret, cert_chain_file
and private_key_file keys, posts exactly the two scoped conflict errors and
never invokes the resolver; however the chain file, renamed to
certificate_chain_file before the conflict check, stays in the bag. -/
theorem c1_amended (ir : IR) (e : IREnvoyTLS) (flag : Bool)
    (h1 : e.enabled = true)
    (h2 : (bagGet e.attrs "secret").isSome = true)
    (h3 : (cs_in_setup ir e flag).value = true) :
    (setup ir e flag).ret = false
    ∧ bagGet (setup ir e flag).attrs "secret" = none
    ∧ bagGet (setup ir e flag).attrs "cert_chain_file" = none
    ∧ bagGet (setup ir e flag).attrs "private_key_file" = none
    ∧ (setup ir e flag).errors =
        [(some e.name, Msg.secretAndCertsConflict), (some e.name, Msg.tlsNotTurnedOn)]
    ∧ (setup ir e flag).resolverCalls = []
    ∧ ∀ v, bagGet e.attrs "cert_chain_file" = some v →
        bagGet (setup ir e flag).attrs "certificate_chain_file" = some v := by
  have hcs := cs_true_spec ir e flag h3
  rw [setup_eq_conflict ir e flag h1 h2 h3]
  refine ⟨rfl, ?_, ?_, ?_, ?_, rfl, ?_⟩
  · rw [bagGet_bagPop_ne _ _ _ (by decide), bagGet_bagPop_ne _ _ _ (by decide),
      bagGet_bagPop_self]
  · rw [bagGet_bagPop_ne _ _ _ (by decide), bagGet_bagPop_self]
  · rw [bagGet_bagPop_self]
  · rw [hcs.1]
    rfl
  · intro v hv
    rw [bagGet_bagPop_ne _ _ _ (by decide), bagGet_bagPop_ne _ _ _ (by decide),
      bagGet_bagPop_ne _ _ _ (by decide)]
    exact setup_bag1_get_cccf_of_some e v hv

/-- Witness for C1 (amended) at the concrete conflicting entity. -/
theorem c1_amended_witness :
    (setup irAllExist entConflict false).ret = false
    ∧ bagGet (setup irAllExist entConflict false).attrs "secret" = none
    ∧ bagGet (setup irAllExist entConflict false).attrs "cert_chain_file" = none
    ∧ bagGet (setup irAllExist entConflict false).attrs "private_key_file" = none
    ∧ (setup irAllExist entConflict false).errors =
        [(some "ctx1", Msg.secretAndCertsConflict), (some "ctx1", Msg.tlsNotTurnedOn)]
    ∧ (setup irAllExist entConflict false).resolverCalls = []
    ∧ ∀ v, bagGet entConflict.attrs "cert_chain_file" = some v →
        bagGet (setup irAllExist entConflict false).attrs "certificate_chain_file" = some v :=
  c1_amended irAllExist entConflict false rfl rfl (by decide)

/-- Claim C5 counterexample: an enabled entity with nothing configured runs
to completion with valid_tls false, yet setup returns true. -/
theorem c5_counterexample :
    (setup irAllExist entEmpty false).ret = true
    ∧ bagGet (setup irAllExist entEmpty false).attrs "valid_tls" = some (Val.bool false) := by
  decide

/-- Claim C5 (amended): setup's return value does not reflect valid_tls; it
is true exactly when the entity is enabled and neither the secret/cert
conflict nor a failed secret resolution short-circuits, regardless of the
computed valid_tls value. -/
theorem c5_amended (ir : IR) (e : IREnvoyTLS) (flag : Bool) :
    (setup ir e flag).ret = (e.enabled && !conflictB ir e flag && !failedResB ir e) := by
  cases he : e.enabled with
  | false => simp [setup, he, conflictB, failedResB]
  | true =>
    cases hs : bagGet e.attrs "secret" with
    | none =>
      rw [setup_eq_finish_none ir e flag he hs, setup_finish_ret]
      simp [conflictB, failedResB, hs, he]
    | some s =>
      cases hcv : (cs_in_setup ir e flag).value with
      | true =>
        rw [setup_eq_conflict ir e flag he (by rw [hs]; rfl) hcv]
        simp [conflictB, failedResB, hs, hcv]
      | false =>
        cases hr : ir.tlsSecretResolver with
        | none =>
          rw [setup_eq_finish_nores ir e flag s he hs hcv hr, setup_finish_ret]
          simp [conflictB, failedResB, hs, hcv, hr, he]
        | some r =>
          cases hm : r s with
          | none =>
            rw [setup_eq_resfail ir e flag s r he hs hcv hr hm]
            simp [conflictB, failedResB, hs, hcv, hr, hm]
          | some m =>
            rw [setup_eq_finish_resolved ir e flag s r m he hs hcv hr hm, setup_finish_ret]
            simp [conflictB, failedResB, hs, hcv, hr, hm, he]

/-- Witness for C5 (amended) at a concrete entity. -/
theorem c5_amended_witness : (setup irAllExist entEmpty false).ret = true :=
  (c5_amended irAllExist entEmpty false).trans (by decide)

/-- Claim C10 (confirmed): an enabled entity with a secret, no conflict and
no resolver configured skips resolution entirely, posts no unresolved-secret
error, and still ends with valid_tls true and setup returning true. -/
theorem c10_secret_without_resolver (ir : IR) (e : IREnvoyTLS) (flag : Bool)
    (h1 : e.enabled = true)
    (h2 : (bagGet e.attrs "secret").isSome = true)
    (h3 : (cs_in_setup ir e flag).value = false)
    (h4 : ir.tlsSecretResolver = none) :
    (setup ir e flag).ret = true
    ∧ (setup ir e flag).resolverCalls = []
    ∧ hasSecretUnresolvedMsg (setup ir e flag).errors = false
    ∧ bagGet (setup ir e flag).attrs "valid_tls" = some (Val.bool true) := by
  obtain ⟨s, hs⟩ := Option.isSome_iff_exists.mp h2
  rw [setup_eq_finish_nores ir e flag s h1 hs h3 h4]
  refine ⟨rfl, rfl, ?_, ?_⟩
  · rw [setup_finish_errors]
    exact cs_no_unresolved ir e flag
  · exact setup_finish_valid_true _ _ _ _ _ _ (by simp)

/-- Witness for C10 at a concrete secret-only entity with no resolver. -/
theorem c10_secret_without_resolver_witness :
    (setup irAllExist entSecretOnly false).ret = true
    ∧ (setup irAllExist entSecretOnly false).resolverCalls = []
    ∧ hasSecretUnresolvedMsg (setup irAllExist entSecretOnly false).errors = false
    ∧ bagGet (setup irAllExist entSecretOnly false).attrs "valid_tls" = some (Val.bool true) :=
  c10_secret_without_resolver irAllExist entSecretOnly false rfl rfl (by decide) rfl

/-- Claim C3 counterexample: an enabled entity with a present but missing
private_key_file has none of the three validity conditions, reaches the end
of setup with valid_tls false, and yet errors were posted. -/
theorem c3_counterexample :
    (bagGet entKeyMissing.attrs "secret").isSome = false
    ∧ (cs_in_setup irNoneExist entKeyMissing false).value = false
    ∧ (bagGet entKeyMissing.attrs "redirect_cleartext_from").isSome = false
    ∧ (setup irNoneExist entKeyMissing false).ret = true
    ∧ bagGet (setup irNoneExist entKeyMissing false).attrs "valid_tls" = some (Val.bool false)
    ∧ (setup irNoneExist entKeyMissing false).errors ≠ [] := by
  decide

/-- Claim C3 (amended): for an enabled entity whose setup runs to
completion, the final valid_tls attribute is exactly the disjunction of the
three conditions (secret present, cert_specified true, redirect present);
no errors are posted when, additionally, no private_key_file attribute was
set (a present-but-missing key file posts scoped errors even though none of
the three conditions holds). -/
theorem c3_amended (ir : IR) (e : IREnvoyTLS) (flag : Bool)
    (hret : (setup ir e flag).ret = true) :
    bagGet (setup ir e flag).attrs "valid_tls" =
      some (Val.bool ((bagGet e.attrs "secret").isSome || (cs_in_setup ir e flag).value
        || (bagGet e.attrs "redirect_cleartext_from").isSome))
    ∧ (bagGet e.attrs "secret" = none → (cs_in_setup ir e flag).value = false →
        bagGet e.attrs "redirect_cleartext_from" = none →
        bagGet e.attrs "private_key_file" = none → (setup ir e flag).errors = []) := by
  cases he : e.enabled with
  | false =>
    rw [setup_disabled_eq ir e flag he] at hret
    exact absurd hret (by simp)
  | true =>
    cases hs : bagGet e.attrs "secret" with
    | none =>
      rw [setup_eq_finish_none ir e flag he hs]
      constructor
      · rw [setup_finish_valid_eq ir e _ none _ _ (setup_bag1_get_valid e),
          setup_bag1_get_redirect]
      · intro _ hcv _ hpk
        rw [setup_finish_errors, cs_in_setup_eq, hpk]
    | some s =>
      cases hcv : (cs_in_setup ir e flag).value with
      | true =>
        rw [setup_eq_conflict ir e flag he (by rw [hs]; rfl) hcv] at hret
        exact absurd hret (by simp)
      | false =>
        have hval : ∀ a cs calls, bagGet (setup_finish ir e a (some s) cs calls).attrs
            "valid_tls" = some (Val.bool true) := fun a cs calls =>
          setup_finish_valid_true ir e a (some s) cs calls (by simp)
        cases hr : ir.tlsSecretResolver with
        | none =>
          rw [setup_eq_finish_nores ir e flag s he hs hcv hr]
          refine ⟨?_, ?_⟩
          · rw [hval]
            simp
          · intro hsn
            exact absurd hsn (by simp)
        | some r =>
          cases hm : r s with
          | none =>
            rw [setup_eq_resfail ir e flag s r he hs hcv hr hm] at hret
            exact absurd hret (by simp)
          | some m =>
            rw [setup_eq_finish_resolved ir e flag s r m he hs hcv hr hm]
            refine ⟨?_, ?_⟩
            · rw [hval]
              simp
            · intro hsn
              exact absurd hsn (by simp)

/-- Witness for C3 (amended): Scenario D, an enabled entity with nothing
configured ends with valid_tls false and an empty error list. -/
theorem c3_amended_witness :
    bagGet (setup irAllExist entEmpty false).attrs "valid_tls" = some (Val.bool false)
    ∧ (setup irAllExist entEmpty false).errors = [] := by
  have h := c3_amended irAllExist entEmpty false (by decide)
  exact ⟨h.1, h.2 rfl (by decide) rfl rfl⟩

/-- Claim C6 counterexample: a default key that setup itself renamed away
(cert_chain_file) is re-filled from the defaults table, so a key that was
set before setup does not keep its value. -/
theorem c6_counterexample :
    (setup irDefaultsCCF entChainOnly false).ret = true
    ∧ bagGet entChainOnly.attrs "cert_chain_file" = some (Val.str "/x")
    ∧ bagGet (setup irDefaultsCCF entChainOnly false).attrs "cert_chain_file"
        = some (Val.str "/d")
    ∧ bagGet (setup irDefaultsCCF entChainOnly false).attrs "cert_chain_file"
        ≠ some (Val.str "/x") := by
  decide

/-- Claim C6 (amended): for an entity whose setup runs to completion, and
for any default key other than the attributes setup itself writes or
renames (valid_tls, cert_chain_file, certificate_chain_file) and not
touched by a resolved secret, a key already set keeps its value and an
absent key receives the default. -/
theorem c6_amended (ir : IR) (e : IREnvoyTLS) (flag : Bool) (k : String) (dv : Val)
    (hret : (setup ir e flag).ret = true)
    (hk1 : k ≠ "valid_tls") (hk2 : k ≠ "cert_chain_file")
    (hk3 : k ≠ "certificate_chain_file")
    (hres : ∀ s r m, bagGet e.attrs "secret" = some s → ir.tlsSecretResolver = some r →
      r s = some m → bagGet m k = none)
    (hdef : bagGet ((ir.tlsDefaults e.name).getD []) k = some dv) :
    (∀ v, bagGet e.attrs k = some v → bagGet (setup ir e flag).attrs k = some v)
    ∧ (bagGet e.attrs k = none → bagGet (setup ir e flag).attrs k = some dv) := by
  have ha1 : bagGet (setup_bag1 e) k = bagGet e.attrs k := setup_bag1_get_ne e k hk1 hk2 hk3
  cases he : e.enabled with
  | false =>
    rw [setup_disabled_eq ir e flag he] at hret
    exact absurd hret (by simp)
  | true =>
    cases hs : bagGet e.attrs "secret" with
    | none =>
      rw [setup_eq_finish_none ir e flag he hs]
      refine ⟨fun v hv => ?_, fun hn => ?_⟩
      · exact setup_finish_get_some ir e _ _ _ _ k v hk1 (by rw [ha1]; exact hv)
      · rw [setup_finish_get_none ir e _ _ _ _ k hk1 (by rw [ha1]; exact hn)]
        exact hdef
    | some s =>
      cases hcv : (cs_in_setup ir e flag).value with
      | true =>
        rw [setup_eq_conflict ir e flag he (by rw [hs]; rfl) hcv] at hret
        exact absurd hret (by simp)
      | false =>
        cases hr : ir.tlsSecretResolver with
        | none =>
          rw [setup_eq_finish_nores ir e flag s he hs hcv hr]
          refine ⟨fun v hv => ?_, fun hn => ?_⟩
          · exact setup_finish_get_some ir e _ _ _ _ k v hk1 (by rw [ha1]; exact hv)
          · rw [setup_finish_get_none ir e _ _ _ _ k hk1 (by rw [ha1]; exact hn)]
            exact hdef
        | some r =>
          cases hm : r s with
          | none =>
            rw [setup_eq_resfail ir e flag s r he hs hcv hr hm] at hret
            exact absurd hret (by simp)
          | some m =>
            have hup : bagGet (bagUpdate (setup_bag1 e) m) k = bagGet e.attrs k := by
              rw [bagGet_bagUpdate_of_none _ _ _ (hres s r m hs hr hm), ha1]
            rw [setup_eq_finish_resolved ir e flag s r m he hs hcv hr hm]
            refine ⟨fun v hv => ?_, fun hn => ?_⟩
            · exact setup_finish_get_some ir e _ _ _ _ k v hk1 (by rw [hup]; exact hv)
            · rw [setup_finish_get_none ir e _ _ _ _ k hk1 (by rw [hup]; exact hn)]
              exact hdef

/-- Witness for C6 (amended): Scenario E, a min_tls_version default fills
an entity that did not set it. -/
theorem c6_amended_witness :
    bagGet (setup irDefaultsMin entEmpty false).attrs "min_tls_version"
      = some (Val.str "1.2") := by
  have h := c6_amended irDefaultsMin entEmpty false "min_tls_version" (Val.str "1.2")
    (by decide) (by decide) (by decide) (by decide)
    (fun s r m _ h2 _ => by exact Option.noConfusion h2) (by decide)
  exact h.2 rfl

theorem countNotices_append (a b : List ErrEntry) :
    countNotices (a ++ b) = countNotices a + countNotices b := by
  induction a with
  | nil => simp [countNotices]
  | cons x r ih => simp [countNotices, ih, Nat.add_assoc]

theorem countIRNotices_append (a b : List ErrEntry) :
    countIRNotices (a ++ b) = countIRNotices a + countIRNotices b := by
  induction a with
  | nil => simp [countIRNotices]
  | cons x r ih => simp [countIRNotices, ih, Nat.add_assoc]

theorem cs_in_setup_flag_true (ir : IR) (e : IREnvoyTLS) :
    (cs_in_setup ir e true).flag = true := by
  rw [cs_in_setup_eq]
  cases hp : bagGet e.attrs "private_key_file" with
  | none => rfl
  | some p => cases hch : ir.fileChecker p <;> simp [hch]

theorem setup_flag_eq (ir : IR) (e : IREnvoyTLS) (flag : Bool) :
    (setup ir e flag).flag =
      (if e.enabled then (cs_in_setup ir e flag).flag else flag) := by
  cases he : e.enabled with
  | false => simp [setup, he]
  | true =>
    simp only [setup, he, if_true, setup_enabled]
    split
    · rfl
    · split
      · split <;> rfl
      · rfl

/-- What setup does to an entity that only has a failing private key file:
the private_key_file branch of cert_specified posts the scoped path error
and, when the flag is still unset, the scoped (not IR-level) notice; setup
then runs to completion. -/
theorem setup_pkf_spec (ir : IR) (e : IREnvoyTLS) (flag : Bool)
    (h : pkf_fails ir e = true) :
    ∃ p, bagGet e.attrs "private_key_file" = some p
      ∧ (setup ir e flag).errors =
          (if flag then [((some e.name : Option String), Msg.privateKeyMissing e.name p)]
           else [(some e.name, Msg.privateKeyMissing e.name p),
             (some e.name, Msg.tlsNotTurnedOn)])
      ∧ (setup ir e flag).flag = true
      ∧ (setup ir e flag).ret = true := by
  cases hp : bagGet e.attrs "private_key_file" with
  | none => simp [pkf_fails, hp] at h
  | some p =>
    simp only [pkf_fails, hp, Bool.and_eq_true, Bool.not_eq_true'] at h
    obtain ⟨⟨he, hsn⟩, hch⟩ := h
    have hs : bagGet e.attrs "secret" = none := Option.isNone_iff_eq_none.mp hsn
    have hcsv : (cs_in_setup ir e flag).value = false := by
      rw [cs_in_setup_eq, hp]
      cases flag <;> simp [hch]
    have hcse : (cs_in_setup ir e flag).errors =
        (if flag then [((some e.name : Option String), Msg.privateKeyMissing e.name p)]
         else [(some e.name, Msg.privateKeyMissing e.name p),
           (some e.name, Msg.tlsNotTurnedOn)]) := by
      rw [cs_in_setup_eq, hp]
      cases flag <;> simp [hch]
    have hcsf : (cs_in_setup ir e flag).flag = true := by
      rw [cs_in_setup_eq, hp]
      cases flag <;> simp [hch]
    rw [setup_eq_finish_none ir e flag he hs]
    exact ⟨p, rfl, by rw [setup_finish_errors]; exact hcse,
      by rw [setup_finish_flag]; exact hcsf, rfl⟩

/-- A pass whose flag is already set: entities failing only the key check
post their scoped path error but no further notice of any kind. -/
theorem runPass_pkf_true (ir : IR) (es : List IREnvoyTLS)
    (h : ∀ e ∈ es, pkf_fails ir e = true) :
    countNotices (runPass ir true es).1 = 0
    ∧ countIRNotices (runPass ir true es).1 = 0
    ∧ (runPass ir true es).2 = true
    ∧ ∀ e ∈ es, ∃ p, bagGet e.attrs "private_key_file" = some p
        ∧ ((some e.name : Option String), Msg.privateKeyMissing e.name p)
            ∈ (runPass ir true es).1 := by
  induction es with
  | nil => simp [runPass, countNotices, countIRNotices]
  | cons e tl ih =>
    obtain ⟨p, hp, herr, hfl, _⟩ := setup_pkf_spec ir e true (h e (by simp))
    have herr' : (setup ir e true).errors =
        [(some e.name, Msg.privateKeyMissing e.name p)] := by
      rw [herr, if_pos rfl]
    have ihh := ih (fun x hx => h x (by simp [hx]))
    have hrp : runPass ir true (e :: tl) =
        ((setup ir e true).errors ++ (runPass ir true tl).1, (runPass ir true tl).2) := by
      simp only [runPass]
      rw [hfl]
    rw [hrp]
    refine ⟨?_, ?_, ihh.2.2.1, ?_⟩
    · rw [countNotices_append, herr']
      simp [countNotices, ihh.1]
    · rw [countIRNotices_append, herr']
      simp [countIRNotices, ihh.2.1]
    · intro x hx
      rcases List.mem_cons.mp hx with heq | hmem
      · subst heq
        exact ⟨p, hp, by rw [herr']; exact List.mem_append_left _ (by simp)⟩
      · obtain ⟨q, hq1, hq2⟩ := ihh.2.2.2 x hmem
        exact ⟨q, hq1, List.mem_append_right _ hq2⟩

/-- Claim C4 counterexample: a pass with two enabled entities that each fail
the key-file existence check records its single TLS-disabled notice as a
scoped error, not at the IR level: the IR-level notice count is zero. -/
theorem c4_counterexample :
    countNotices (runPass irNoneExist false [entKeyMissing, entKeyMissingB]).1 = 1
    ∧ countIRNotices (runPass irNoneExist false [entKeyMissing, entKeyMissingB]).1 = 0 := by
  decide

/-- Claim C4 (amended): in a pass starting with the warning flag unset over
entities that each fail the private-key existence check (the only cert-file
check reachable from setup) and have no secret, exactly one TLS-disabled
notice is recorded for the whole pass, but as a scoped error on the first
failing entity, never at the IR level; every entity records a scoped error
naming its missing key path. -/
theorem c4_amended (ir : IR) (es : List IREnvoyTLS)
    (hne : es ≠ [])
    (h : ∀ e ∈ es, pkf_fails ir e = true) :
    countNotices (runPass ir false es).1 = 1
    ∧ countIRNotices (runPass ir false es).1 = 0
    ∧ (runPass ir false es).2 = true
    ∧ ∀ e ∈ es, ∃ p, bagGet e.attrs "private_key_file" = some p
        ∧ ((some e.name : Option String), Msg.privateKeyMissing e.name p)
            ∈ (runPass ir false es).1 := by
  cases es with
  | nil => exact absurd rfl hne
  | cons e tl =>
    obtain ⟨p, hp, herr, hfl, _⟩ := setup_pkf_spec ir e false (h e (by simp))
    have herr' : (setup ir e false).errors =
        [(some e.name, Msg.privateKeyMissing e.name p),
          (some e.name, Msg.tlsNotTurnedOn)] := by
      rw [herr, if_neg (by simp)]
    have ihh := runPass_pkf_true ir tl (fun x hx => h x (by simp [hx]))
    have hrp : runPass ir false (e :: tl) =
        ((setup ir e false).errors ++ (runPass ir true tl).1, (runPass ir true tl).2) := by
      simp only [runPass]
      rw [hfl]
    rw [hrp]
    refine ⟨?_, ?_, ihh.2.2.1, ?_⟩
    · rw [countNotices_append, herr']
      simp [countNotices, ihh.1]
    · rw [countIRNotices_append, herr']
      simp [countIRNotices, ihh.2.1]
    · intro x hx
      rcases List.mem_cons.mp hx with heq | hmem
      · subst heq
        exact ⟨p, hp, by rw [herr']; exact List.mem_append_left _ (by simp)⟩
      · obtain ⟨q, hq1, hq2⟩ := ihh.2.2.2 x hmem
        exact ⟨q, hq1, List.mem_append_right _ hq2⟩

/-- Witness for C4 (amended) on a concrete two-entity pass. -/
theorem c4_amended_witness :
    countIRNotices (runPass irNoneExist false [entKeyMissing, entKeyMissingB]).1 = 0
    ∧ (runPass irNoneExist false [entKeyMissing, entKeyMissingB]).2 = true := by
  have h := c4_amended irNoneExist [entKeyMissing, entKeyMissingB] (by decide) (by decide)
  exact ⟨h.2.1, h.2.2.1⟩

/-- Claim C7 counterexample: the _cert_problems flag is never reset between
passes; a second pass over the same failing entity, inheriting the flag a
first pass set, emits no TLS-disabled notice at all. -/
theorem c7_counterexample :
    (runPass irNoneExist false [entKeyMissing]).2 = true
    ∧ countNotices (runPass irNoneExist false [entKeyMissing]).1 = 1
    ∧ countNotices
        (runPass irNoneExist (runPass irNoneExist false [entKeyMissing]).2
          [entKeyMissing]).1 = 0 := by
  decide

/-- Claim C7 (amended): _cert_problems is a process-global class attribute,
set once and never reset per pass: a setup running with the flag already set
keeps it set, and the flag-gated cert-failure path of cert_specified emits
no further TLS-disabled notice. -/
theorem c7_amended (ir : IR) (e : IREnvoyTLS) :
    (setup ir e true).flag = true
    ∧ countNotices (cs_in_setup ir e true).errors = 0 := by
  constructor
  · rw [setup_flag_eq]
    cases he : e.enabled <;> simp [cs_in_setup_flag_true]
  · rw [cs_in_setup_eq]
    cases hp : bagGet e.attrs "private_key_file" with
    | none => rfl
    | some p => cases hch : ir.fileChecker p <;> simp [hch, countNotices]

theorem popDefault_fst (b : Bag) (k : String) (d : Val) :
    (popDefault b k d).1 = (bagGet b k).getD d := by
  cases h : bagGet b k <;> simp [popDefault, h]

theorem popDefault_get_self (b : Bag) (k : String) (d : Val) :
    bagGet (popDefault b k d).2 k = none := by
  cases h : bagGet b k <;> simp [popDefault, h, bagGet_bagPop_self]

theorem popDefault_get_ne (b : Bag) (k : String) (d : Val) (k2 : String) (h2 : k ≠ k2) :
    bagGet (popDefault b k d).2 k2 = bagGet b k2 := by
  cases h : bagGet b k <;> simp [popDefault, h, bagGet_bagPop_ne _ _ _ h2]

/-- Claim C9 (confirmed): load_all is a no-op without a tls module; with
one, it builds the module entity with rkey, kind, name and location popped
from the raw attribute dict (falling back to the resource properties) and
every remaining raw attribute passed through to the constructor. -/
theorem c9_load_all (aconf : Config) :
    (aconf.getModule "tls" = none → load_all aconf = none)
    ∧ ∀ m, aconf.getModule "tls" = some m →
        ∃ t, load_all aconf = some t
          ∧ t.rkey = (bagGet m.dict "rkey").getD m.rkey
          ∧ t.kind = (bagGet m.dict "kind").getD m.kind
          ∧ t.name = (bagGet m.dict "name").getD m.name
          ∧ t.location = (bagGet m.dict "location").getD m.location
          ∧ (∀ k, k ≠ "rkey" → k ≠ "kind" → k ≠ "name" → k ≠ "location" →
              bagGet t.attrs k = bagGet m.dict k)
          ∧ bagGet t.attrs "rkey" = none
          ∧ bagGet t.attrs "kind" = none
          ∧ bagGet t.attrs "name" = none
          ∧ bagGet t.attrs "location" = none := by
  constructor
  · intro h
    simp [load_all, h]
  · intro m hm
    have hl : load_all aconf = some
        ⟨(popDefault m.dict "rkey" m.rkey).1,
          (popDefault (popDefault m.dict "rkey" m.rkey).2 "kind" m.kind).1,
          (popDefault (popDefault (popDefault m.dict "rkey" m.rkey).2 "kind" m.kind).2
            "name" m.name).1,
          (popDefault (popDefault (popDefault (popDefault m.dict "rkey" m.rkey).2
            "kind" m.kind).2 "name" m.name).2 "location" m.location).1,
          (popDefault (popDefault (popDefault (popDefault m.dict "rkey" m.rkey).2
            "kind" m.kind).2 "name" m.name).2 "location" m.location).2⟩ := by
      simp [load_all, hm]
    have hrk : (popDefault m.dict "rkey" m.rkey).1 = (bagGet m.dict "rkey").getD m.rkey :=
      popDefault_fst _ _ _
    have hkd : (popDefault (popDefault m.dict "rkey" m.rkey).2 "kind" m.kind).1 = (bagGet m.dict "kind").getD m.kind := by
      rw [popDefault_fst, popDefault_get_ne _ _ _ _ (by decide)]
    have hnm : (popDefault (popDefault (popDefault m.dict "rkey" m.rkey).2 "kind" m.kind).2 "name" m.name).1 = (bagGet m.dict "name").getD m.name := by
      rw [popDefault_fst, popDefault_get_ne _ _ _ _ (by decide),
        popDefault_get_ne _ _ _ _ (by decide)]
    have hloc : (popDefault (popDefault (popDefault (popDefault m.dict "rkey" m.rkey).2 "kind" m.kind).2 "name" m.name).2 "location" m.location).1 =
        (bagGet m.dict "location").getD m.location := by
      rw [popDefault_fst, popDefault_get_ne _ _ _ _ (by decide),
        popDefault_get_ne _ _ _ _ (by decide), popDefault_get_ne _ _ _ _ (by decide)]
    have hcopy : ∀ k, k ≠ "rkey" → k ≠ "kind" → k ≠ "name" → k ≠ "location" →
        bagGet (popDefault (popDefault (popDefault (popDefault m.dict "rkey" m.rkey).2 "kind" m.kind).2 "name" m.name).2 "location" m.location).2 k = bagGet m.dict k := by
      intro k h1 h2 h3 h4
      rw [popDefault_get_ne _ _ _ _ (Ne.symm h4), popDefault_get_ne _ _ _ _ (Ne.symm h3),
        popDefault_get_ne _ _ _ _ (Ne.symm h2), popDefault_get_ne _ _ _ _ (Ne.symm h1)]
    have hid1 : bagGet (popDefault (popDefault (popDefault (popDefault m.dict "rkey" m.rkey).2 "kind" m.kind).2 "name" m.name).2 "location" m.location).2 "rkey" = none := by
      rw [popDefault_get_ne _ _ _ _ (by decide), popDefault_get_ne _ _ _ _ (by decide),
        popDefault_get_ne _ _ _ _ (by decide), popDefault_get_self]
    have hid2 : bagGet (popDefault (popDefault (popDefault (popDefault m.dict "rkey" m.rkey).2 "kind" m.kind).2 "name" m.name).2 "location" m.location).2 "kind" = none := by
      rw [popDefault_get_ne _ _ _ _ (by decide), popDefault_get_ne _ _ _ _ (by decide),
        popDefault_get_self]
    have hid3 : bagGet (popDefault (popDefault (popDefault (popDefault m.dict "rkey" m.rkey).2 "kind" m.kind).2 "name" m.name).2 "location" m.location).2 "name" = none := by
      rw [popDefault_get_ne _ _ _ _ (by decide), popDefault_get_self]
    have hid4 : bagGet (popDefault (popDefault (popDefault (popDefault m.dict "rkey" m.rkey).2 "kind" m.kind).2 "name" m.name).2 "location" m.location).2 "location" = none :=
      popDefault_get_self _ _ _
    exact ⟨_, hl, hrk, hkd, hnm, hloc, hcopy, hid1, hid2, hid3, hid4⟩

/-- Witness for C9 at two concrete configs: one empty, one with a module
whose dict overrides the name and carries one passthrough attribute. -/
theorem c9_load_all_witness :
    load_all confEmpty = none
    ∧ ∃ t, load_all confWithTLS = some t
        ∧ t.name = Val.str "tlsmod"
        ∧ bagGet t.attrs "name" = none
        ∧ bagGet t.attrs "enabled" = some (Val.bool true) := by
  have h1 := (c9_load_all confEmpty).1 rfl
  obtain ⟨t, ht1, _, _, ht4, _, ht6, _, _, ht9, _⟩ :=
    (c9_load_all confWithTLS).2 rawTLSModule rfl
  refine ⟨h1, t, ht1, ht4.trans (by decide), ht9, ?_⟩
  exact (ht6 "enabled" (by decide) (by decide) (by decide) (by decide)).trans (by decide)

end AmbassadorTLS
